import Mathlib

/-!
Verification development for the hanafs repository (package `hana`,
file `client.go`, and the `fs` filesystem adapter in the same file).

The Go source is shallowly embedded: each Go function becomes a Lean
function over explicit state, HTTP round trips become oracle values or
oracle functions passed as arguments, Go `error` values become
`Except String`/`Option`, and Go slices become Lean lists.  Machine
integers (`int64`, `uint32`) are modelled as `Int`/`Nat`; none of the
embedded arithmetic can overflow in the ranges the program uses.
-/

set_option autoImplicit false

/-! ## HTTP layer: the `hana` client (`client.go`, package `hana`) -/

/-- Embeds the part of a Go `*http.Response` that `client.go` inspects:
the status code and the value of the `x-csrf-token` response header
(`""` when the header is absent, matching Go `Header.Get`). -/
structure HTTPResponse where
  statusCode : Nat
  headerCSRFToken : String
deriving DecidableEq

/-- Go constant `valueRequired = "required"`. -/
def valueRequired : String := "required"

/-- Models Go `strings.ToLower` on the ASCII header values the client
compares (kernel-reducible, unlike the byte-position based library
function). -/
def lowerAscii (s : String) : String :=
  ⟨s.data.map Char.toLower⟩

/-- Embeds `isCSRFTokenError` (client.go:41-44): forbidden status (403)
whose lower-cased `x-csrf-token` response header equals `"required"`. -/
def isCSRFTokenError (response : HTTPResponse) : Bool :=
  response.statusCode == 403 && lowerAscii response.headerCSRFToken == valueRequired

/-- The error values `fetchCSRFToken` can produce (client.go:90-112):
the transport error of the HEAD probe itself, or one of the four
`errors.New` messages chosen by status-code range. -/
inductive FetchErr where
  | headTransport (e : String)
  | redirectCheckCredential
  | requestNotAccepted
  | serverDown
  | couldNotFetchToken
deriving DecidableEq

/-- Embeds `fetchCSRFToken` (client.go:80-116).  The HEAD probe against
`/sap/hana/xs/dt/base/info` is an oracle argument: `Except.error e` when
`c.req.Head` returned a Go error, otherwise the response.  On success the
method stores the received header value into `c.token`; the embedding
returns that new token as `Except.ok`. -/
def fetchCSRFToken (handshake : Except String HTTPResponse) : Except FetchErr String :=
  match handshake with
  | Except.error e => Except.error (FetchErr.headTransport e)
  | Except.ok httpResponse =>
    let status := httpResponse.statusCode
    let token := httpResponse.headerCSRFToken
    if token.length != 0 && token != "unsafe" then
      Except.ok token
    else if 300 ≤ status && status < 400 then
      Except.error FetchErr.redirectCheckCredential
    else if 400 ≤ status && status < 500 then
      Except.error FetchErr.requestNotAccepted
    else if 500 ≤ status && status < 600 then
      Except.error FetchErr.serverDown
    else
      Except.error FetchErr.couldNotFetchToken

/-- Outcome of one `req.Do` round trip (client.go:61 and 69):
either the round trip failed with a Go error and produced no usable
`*http.Response` (so `resp.Response()` is `nil`), or it produced a
response together with the accompanying `error` value. -/
inductive DoOutcome where
  | failedNoResponse (e : String)
  | completed (r : HTTPResponse) (err : Option String)
deriving DecidableEq

/-- Errors `request` can return: a failed token refresh, or the error of
a round trip. -/
inductive RequestError where
  | fetchFailed (e : FetchErr)
  | transport (e : String)
deriving DecidableEq

/-- What `request` does for its caller: dereference a nil response
(run-time panic), return an error, or return a response. -/
inductive RequestOutcome where
  | panics
  | errored (e : RequestError)
  | ok (r : HTTPResponse)
deriving DecidableEq

/-- Observable trace of one call of `request` (client.go:46-78):
which token the header carried on the first attempt, whether the
token-refresh handshake ran, which token the header carried on the
retry (`none` when no retry happened), the client token after the
call, and the outcome handed to the caller. -/
structure RequestTrace where
  firstAttemptToken : String
  refreshPerformed : Bool
  retryToken : Option String
  tokenAfter : String
  outcome : RequestOutcome
deriving DecidableEq

/-- Embeds `request` (client.go:46-78).  `token` is `c.token` at entry;
`do1` and `do2` are the outcomes of the first and the retried `req.Do`,
and `handshake` is the HEAD-probe oracle for `fetchCSRFToken`.

The embedding keeps two behaviours of the source exactly:
the code evaluates `isCSRFTokenError(resp.Response())` before looking at
`err`, so a round trip that produced no usable response makes it
dereference a nil `*http.Response`; and the retry reuses `infos`, whose
`req.Header` map was built from `c.token` before the first attempt, so
the retry carries the old header token even after the refresh replaced
`c.token`. -/
def request (token : String) (do1 do2 : DoOutcome)
    (handshake : Except String HTTPResponse) : RequestTrace :=
  let headerToken := token
  match do1 with
  | DoOutcome.failedNoResponse _ =>
      { firstAttemptToken := headerToken, refreshPerformed := false,
        retryToken := none, tokenAfter := token, outcome := RequestOutcome.panics }
  | DoOutcome.completed r1 err1 =>
    if isCSRFTokenError r1 then
      match fetchCSRFToken handshake with
      | Except.error e =>
          { firstAttemptToken := headerToken, refreshPerformed := true,
            retryToken := none, tokenAfter := token,
            outcome := RequestOutcome.errored (RequestError.fetchFailed e) }
      | Except.ok newToken =>
        match do2 with
        | DoOutcome.failedNoResponse e2 =>
            { firstAttemptToken := headerToken, refreshPerformed := true,
              retryToken := some headerToken, tokenAfter := newToken,
              outcome := RequestOutcome.errored (RequestError.transport e2) }
        | DoOutcome.completed r2 err2 =>
          match err2 with
          | some e2 =>
              { firstAttemptToken := headerToken, refreshPerformed := true,
                retryToken := some headerToken, tokenAfter := newToken,
                outcome := RequestOutcome.errored (RequestError.transport e2) }
          | none =>
              { firstAttemptToken := headerToken, refreshPerformed := true,
                retryToken := some headerToken, tokenAfter := newToken,
                outcome := RequestOutcome.ok r2 }
    else
      match err1 with
      | some e1 =>
          { firstAttemptToken := headerToken, refreshPerformed := false,
            retryToken := none, tokenAfter := token,
            outcome := RequestOutcome.errored (RequestError.transport e1) }
      | none =>
          { firstAttemptToken := headerToken, refreshPerformed := false,
            retryToken := none, tokenAfter := token,
            outcome := RequestOutcome.ok r1 }

/-! ## The `fs` adapter: attribute records, caches, negative-existence list -/

/-- Embeds the fields of `fuse.Stat_t` that the adapter touches.
Timestamps are abstract clock values (`fuse.Now()` readings). -/
structure Stat_t where
  flags : Nat
  uid : Nat
  gid : Nat
  ctim : Nat
  atim : Nat
  mtim : Nat
  mode : Nat
  size : Int
deriving DecidableEq

/-- cgofuse mode bit: directory. -/
def S_IFDIR : Nat := 0o0040000

/-- cgofuse mode bit: regular file. -/
def S_IFREG : Nat := 0o0100000

/-- cgofuse mode bits: rwx for the owner. -/
def S_IRWXU : Nat := 0o0700

/-- Go constant `DefaultRemoteCacheSeconds = 15`. -/
def DefaultRemoteCacheSeconds : Nat := 15

/-- Modelled from the spec: the repository's cache implementation
(`StatCache`/`DirectoryCache`, file `fs/cache.go`) is not under `src/`;
a Cache Entry is "a value plus a recorded timestamp and a time-to-live
in seconds". -/
structure CacheEntry (α : Type) where
  value : α
  cachedAt : Nat
  ttlSeconds : Nat
deriving DecidableEq

/-- String-keyed map as an association list; the first binding wins,
matching Go map reads after overwriting writes. -/
def mapGet {α : Type} : List (String × α) → String → Option α
  | [], _ => none
  | (k1, v) :: rest, k => if k1 == k then some v else mapGet rest k

/-- Installing a binding: a later write shadows earlier ones. -/
def mapSet {α : Type} (m : List (String × α)) (k : String) (v : α) :
    List (String × α) :=
  (k, v) :: m

/-- Modelled from the spec: a time-bounded cache keyed by path. -/
abbrev Cache (α : Type) := List (String × CacheEntry α)

/-- Modelled from the spec: "an entry is valid if and only if current
time − recorded timestamp < time-to-live". -/
def cacheValid {α : Type} (e : CacheEntry α) (now : Nat) : Bool :=
  now - e.cachedAt < e.ttlSeconds

/-- Modelled from the spec: `PreloadWithTTL(path, value, ttlSeconds)`
"unconditionally installs an entry, timestamped now, bypassing the
provider". -/
def preloadWithTTL {α : Type} (m : Cache α) (path : String) (v : α)
    (ttl now : Nat) : Cache α :=
  mapSet m path { value := v, cachedAt := now, ttlSeconds := ttl }

/-- Modelled from the spec: the miss path of `Get(path)` — "invoke the
provider function for path; on success, store the result with a fresh
timestamp and the configured TTL and return it; on failure, propagate
the provider's error without caching it".  The third component records
that the provider (hence a remote request) was invoked. -/
def cacheFetch {α : Type} (m : Cache α) (provider : String → Except String α)
    (path : String) (now : Nat) : Except String α × Cache α × Bool :=
  match provider path with
  | Except.ok v => (Except.ok v, preloadWithTTL m path v DefaultRemoteCacheSeconds now, true)
  | Except.error e => (Except.error e, m, true)

/-- Modelled from the spec: `Get(path)` — "if a valid (non-expired)
entry exists, return it without contacting the provider", otherwise
fetch through the provider.  The third component is `true` exactly when
the provider was invoked. -/
def cacheGet {α : Type} (m : Cache α) (provider : String → Except String α)
    (path : String) (now : Nat) : Except String α × Cache α × Bool :=
  match mapGet m path with
  | some e =>
    if cacheValid e now then (Except.ok e.value, m, false)
    else cacheFetch m provider path now
  | none => cacheFetch m provider path now

/-- Updates the value held by the binding for `path` while keeping its
timestamp and TTL.  Used to mirror Go pointer aliasing: `Getattr`
mutates the `*fuse.Stat_t` it got from the cache, which is the very
record the cache stores. -/
def cacheUpdateValue {α : Type} (m : Cache α) (path : String) (v : α) : Cache α :=
  m.map (fun kv => if kv.1 == path then (kv.1, { kv.2 with value := v }) else kv)

/-- Embeds `isNotExist` (client.go fs part, lines 277-284): linear scan
of the negative-existence list. -/
def isNotExist : List String → String → Bool
  | [], _ => false
  | f :: rest, path => if f == path then true else isNotExist rest path

/-- Embeds `notExist` (lines 286-290): append the path only when the
membership test fails. -/
def notExist (l : List String) (path : String) : List String :=
  if !isNotExist l path then l ++ [path] else l

/-- One iteration of the removal loop in `removeFromNotExist`
(lines 294-298).  The Go `range` captured the original slice header, so
the loop reads index `i` of the backing array of the original length
while `append(l[:i], l[i+1:]...)` shifts the live prefix of that array
left in place and shortens the live length by one; positions at or past
the live length keep their old contents.  The state is the backing
array (constant length) paired with the live length.  Under the guard
in `removeFromNotExist` no iteration ever matches, so the shifting
branch is unreachable in the program. -/
def removeStep (path : String) (st : List String × Nat) (i : Nat) :
    List String × Nat :=
  let backing := st.1
  let curLen := st.2
  if backing.getD i "" == path then
    (backing.take i ++ (backing.drop (i + 1)).take (curLen - (i + 1)) ++
        backing.drop (curLen - 1),
      curLen - 1)
  else
    (backing, curLen)

/-- Embeds `removeFromNotExist` (lines 292-300).  Note the guard of the
source: the removal loop runs only when `isNotExist` is FALSE, i.e. only
when the path is not a member of the list. -/
def removeFromNotExist (l : List String) (path : String) : List String :=
  if !isNotExist l path then
    let st := (List.range l.length).foldl (removeStep path) (l, l.length)
    st.1.take st.2
  else
    l

/-- One child entry of a `DirectoryDetail`.  Modelled from the spec:
the decoded listing type is not under `src/`; per the spec each child
carries "its own name, absolute content location, and a directory/file
flag". -/
structure DirChild where
  name : String
  contentLocation : String
  directory : Bool
deriving DecidableEq

/-- Modelled from the spec: the decoded directory listing — the
children of one remote directory. -/
structure DirectoryDetail where
  children : List DirChild
deriving DecidableEq

/-- Embeds `CachedDirectory`: a map from child name to that child's
`fuse.Stat_t` record. -/
structure CachedDirectory where
  children : List (String × Stat_t)
deriving DecidableEq

/-- POSIX `ENOENT`. -/
def ENOENT : Int := 2

/-- The per-child record constructed by the loop body of `getDir`
(lines 391-413): fresh timestamps and context owner/group, directory or
regular-file mode bits from the child's flag, and — for a regular file
whose size is still zero — the opportunistic size fill, which reads
`path` (the PARENT directory's path, exactly as the source does) and
leaves the size untouched when that read fails. -/
def getDirChildStat (readFile : String → Except String (List Nat))
    (path : String) (now uid gid : Nat) (hanaChild : DirChild) : Stat_t :=
  let base : Stat_t :=
    { flags := 0, uid := uid, gid := gid, ctim := now, atim := now,
      mtim := now, mode := 0, size := 0 }
  if hanaChild.directory then
    { base with mode := S_IFDIR ||| S_IRWXU }
  else
    let reg := { base with mode := S_IFREG ||| S_IRWXU }
    if reg.size == 0 then
      match readFile path with
      | Except.ok content => { reg with size := (content.length : Int) }
      | Except.error _ => reg
    else reg

/-- One iteration of the child loop of `getDir` (lines 391-421): record
the child's stat under its name in the listing under construction and
preload the stat cache under the child's content location. -/
def getDirStep (readFile : String → Except String (List Nat))
    (path : String) (now uid gid : Nat)
    (acc : CachedDirectory × Cache Stat_t) (hanaChild : DirChild) :
    CachedDirectory × Cache Stat_t :=
  let fsChildStat := getDirChildStat readFile path now uid gid hanaChild
  (⟨mapSet acc.1.children hanaChild.name fsChildStat⟩,
    preloadWithTTL acc.2 hanaChild.contentLocation fsChildStat
      DefaultRemoteCacheSeconds now)

/-- Embeds `getDir` (lines 377-428), the Directory Cache provider.
`readDirectoryResult` is the outcome of `f.client.ReadDirectory(path)`;
`readFile` is the oracle for `f.client.ReadFile`; `now` is the
`fuse.Now()` reading and `uid`/`gid` the `fuse.Getcontext()` identifiers.
Returns the listing (or the error), together with the stat cache after
the per-child `PreStatCacheSeconds` preloads and the directory cache
after the final `PreDirectoryCacheSeconds` preload.  The
`sync.WaitGroup` of the source is never used and has no observable
effect. -/
def getDir (readDirectoryResult : Except String DirectoryDetail)
    (readFile : String → Except String (List Nat))
    (path : String) (now uid gid : Nat)
    (statCache : Cache Stat_t) (dirCache : Cache CachedDirectory) :
    Except String CachedDirectory × Cache Stat_t × Cache CachedDirectory :=
  match readDirectoryResult with
  | Except.error e => (Except.error e, statCache, dirCache)
  | Except.ok dir =>
    let folded := dir.children.foldl (getDirStep readFile path now uid gid)
      (⟨[]⟩, statCache)
    (Except.ok folded.1, folded.2,
      preloadWithTTL dirCache path folded.1 DefaultRemoteCacheSeconds now)

/-- State the filesystem adapter threads through `Getattr`: the
negative-existence list and the stat cache. -/
structure FSState where
  notExistList : List String
  statCache : Cache Stat_t
deriving DecidableEq

/-- Result of one `Getattr` call: the returned errno (0 or `-ENOENT`),
the record copied into the caller's buffer (if any), the adapter state
afterwards, and whether the stat-cache provider (a remote request) was
invoked. -/
structure GetattrOut where
  errno : Int
  stat : Option Stat_t
  state : FSState
  remoteIssued : Bool
deriving DecidableEq

/-- Embeds `Getattr` (lines 330-353).  `provider` is the Attribute
Cache's provider (`f.getStat`, a remote `Stat`); `ctxUid`/`ctxGid` come
from `fuse.Getcontext()`.  When the cached record has `Uid == 0` the
source fills both `Uid` and `Gid` from the context by writing through
the cached pointer; `cacheUpdateValue` mirrors that aliasing. -/
def Getattr (st : FSState) (provider : String → Except String Stat_t)
    (path : String) (now ctxUid ctxGid : Nat) : GetattrOut :=
  if isNotExist st.notExistList path then
    { errno := -ENOENT, stat := none, state := st, remoteIssued := false }
  else
    let trip := cacheGet st.statCache provider path now
    match trip.1 with
    | Except.error _ =>
        { errno := -ENOENT, stat := none,
          state := { notExistList := notExist st.notExistList path,
                     statCache := trip.2.1 },
          remoteIssued := trip.2.2 }
    | Except.ok stat =>
      let stat1 :=
        if stat.uid == 0 then { stat with uid := ctxUid, gid := ctxGid } else stat
      let cache1 :=
        if stat.uid == 0 then cacheUpdateValue trip.2.1 path stat1 else trip.2.1
      { errno := 0, stat := some stat1,
        state := { notExistList := st.notExistList, statCache := cache1 },
        remoteIssued := trip.2.2 }

/-- Embeds `Read` (lines 355-375).  `readFileResult` is the outcome of
`f.client.ReadFile(path)`; `buffLen` is `len(buff)` and `ofst` the
`int64` offset.  Returns `none` where the Go code would panic on the
slice expression `contents[ofst:endofst]` (negative offset), otherwise
the returned count `n` and the bytes copied into the buffer. -/
def fsRead (readFileResult : Except String (List Nat)) (buffLen : Nat)
    (ofst : Int) : Option (Int × List Nat) :=
  match readFileResult with
  | Except.error _ => some (-ENOENT, [])
  | Except.ok contents =>
    let endofst0 : Int := ofst + (buffLen : Int)
    let endofst : Int :=
      if endofst0 > (contents.length : Int) then (contents.length : Int) else endofst0
    if endofst < ofst then some (0, [])
    else if 0 ≤ ofst then
      let src := (contents.drop ofst.toNat).take (endofst - ofst).toNat
      some ((src.length : Int), src)
    else none

/-- The operations that touch the negative-existence list. -/
inductive NotExistOp where
  | add (path : String)
  | remove (path : String)
deriving DecidableEq

/-- Applies one list operation, as the adapter would. -/
def applyOp (l : List String) : NotExistOp → List String
  | NotExistOp.add p => notExist l p
  | NotExistOp.remove p => removeFromNotExist l p

/-- The negative-existence list after a sequence of operations, starting
from the empty list of a fresh `HanaFS`. -/
def applyOps (ops : List NotExistOp) : List String :=
  ops.foldl applyOp []

/-- Concrete `ReadFile` oracle for the listing of `"/parent"`: the
parent path resolves to three bytes, the child `"/parent/a"` to one. -/
def readFileParentA : String → Except String (List Nat) :=
  fun p =>
    if p == "/parent" then Except.ok [10, 11, 12]
    else if p == "/parent/a" then Except.ok [9]
    else Except.error "file not found"

/-! ## Theorems -/

/-- Claim C1: an authenticated request answered 403 with the
`x-csrf-token: required` header is claimed to refresh the token once and
retry once carrying the NEW token.  Evaluating the embedded `request` at
such an input shows the refresh runs once and the retry runs once, and
the retry succeeds transparently, but the retried request still carries
the stale token `"oldtok"` even though the refresh installed `"newtok"`
on the client: the `req.Header` map inside `infos` was built from
`c.token` before the first attempt and is never rebuilt. -/
theorem request_retry_carries_stale_token :
    (request "oldtok"
        (DoOutcome.completed ⟨403, "required"⟩ none)
        (DoOutcome.completed ⟨200, ""⟩ none)
        (Except.ok ⟨200, "newtok"⟩)) =
      { firstAttemptToken := "oldtok", refreshPerformed := true,
        retryToken := some "oldtok", tokenAfter := "newtok",
        outcome := RequestOutcome.ok ⟨200, ""⟩ } := by decide

/-- Claim C3: removing a path that IS a member of the negative-existence
list is claimed to make it a non-member.  Evaluating the embedded
`removeFromNotExist` on the list `["/a"]` and path `"/a"` shows the
operation leaves the list unchanged — the guard `!f.isNotExist(path)`
skips the removal loop exactly when the path is present. -/
theorem removeFromNotExist_keeps_present_member :
    removeFromNotExist ["/a"] "/a" = ["/a"]
    ∧ isNotExist (removeFromNotExist ["/a"] "/a") "/a" = true := by decide

/-- Claim C6: the size of a regular-file child of `"/parent"` is claimed
to be the length of that child's own content.  Evaluating the embedded
`getDir` with an oracle under which `"/parent"` has three bytes and the
child `"/parent/a"` one byte shows the child's record gets size 3 — the
length of the PARENT path's content, because the source calls
`f.client.ReadFile(path)` with the directory's own path instead of the
child's content location. -/
theorem getDir_fills_child_size_from_parent_path :
    ((getDir (Except.ok ⟨[⟨"a", "/parent/a", false⟩]⟩) readFileParentA
        "/parent" 100 7 8 [] []).1.toOption.bind
          (fun rt => mapGet rt.children "a")).map Stat_t.size = some 3
    ∧ (readFileParentA "/parent/a").toOption.map List.length = some 1 := by decide

/-- Claim C10: when the underlying round trip fails with a transport
error and produces no usable response, `request` is claimed to return
that error without inspecting the response.  Evaluating the embedded
`request` at such an input shows the call dereferences the nil
`*http.Response` inside `isCSRFTokenError(resp.Response())` — evaluated
before the `err != nil` check — instead of returning the error. -/
theorem request_inspects_response_on_transport_error :
    (request "tok" (DoOutcome.failedNoResponse "connection refused")
        (DoOutcome.completed ⟨200, ""⟩ none)
        (Except.ok ⟨200, "t"⟩)).outcome = RequestOutcome.panics := by decide

/-- A Go string has `len != 0` exactly when it is not the empty string. -/
theorem stringLengthNeZero (s : String) : s.length ≠ 0 ↔ s ≠ "" := by
  obtain ⟨data⟩ := s
  cases data <;> simp [String.length, String.ext_iff]

/-- Characterization of the embedded `fetchCSRFToken` on a completed
HEAD probe, separating the success guard from the status-code switch. -/
theorem fetchCSRFToken_ok_eq (r : HTTPResponse) :
    fetchCSRFToken (Except.ok r) =
      if r.headerCSRFToken ≠ "" ∧ r.headerCSRFToken ≠ "unsafe" then
        Except.ok r.headerCSRFToken
      else if 300 ≤ r.statusCode ∧ r.statusCode < 400 then
        Except.error FetchErr.redirectCheckCredential
      else if 400 ≤ r.statusCode ∧ r.statusCode < 500 then
        Except.error FetchErr.requestNotAccepted
      else if 500 ≤ r.statusCode ∧ r.statusCode < 600 then
        Except.error FetchErr.serverDown
      else Except.error FetchErr.couldNotFetchToken := by
  by_cases h1 : r.headerCSRFToken = ""
  · simp [fetchCSRFToken, h1]
  · by_cases h2 : r.headerCSRFToken = "unsafe"
    · simp [fetchCSRFToken, h1, h2]
    · have h3 : r.headerCSRFToken.length ≠ 0 := (stringLengthNeZero _).mpr h1
      simp [fetchCSRFToken, h1, h2, h3]

/-- Claim C7: the token-refresh handshake succeeds (installing the
received header token) if and only if the `x-csrf-token` response
header value is non-empty and not the literal `"unsafe"`; otherwise it
fails with the error chosen by the response status: 3xx a
credential/redirect error, 4xx a rejected-request error, 5xx a
service-down error, any other status the generic token-fetch error. -/
theorem fetchCSRFToken_success_iff_and_failure_classes (r : HTTPResponse) :
    (fetchCSRFToken (Except.ok r) = Except.ok r.headerCSRFToken
      ↔ (r.headerCSRFToken ≠ "" ∧ r.headerCSRFToken ≠ "unsafe"))
    ∧ ((r.headerCSRFToken = "" ∨ r.headerCSRFToken = "unsafe") →
        fetchCSRFToken (Except.ok r) =
          Except.error
            (if 300 ≤ r.statusCode ∧ r.statusCode < 400 then
              FetchErr.redirectCheckCredential
            else if 400 ≤ r.statusCode ∧ r.statusCode < 500 then
              FetchErr.requestNotAccepted
            else if 500 ≤ r.statusCode ∧ r.statusCode < 600 then
              FetchErr.serverDown
            else FetchErr.couldNotFetchToken)) := by
  constructor
  · rw [fetchCSRFToken_ok_eq]
    by_cases hc : r.headerCSRFToken ≠ "" ∧ r.headerCSRFToken ≠ "unsafe"
    · simp [hc]
    · simp only [hc, if_false, iff_false]
      intro h
      split_ifs at h
  · intro h
    have hc : ¬(r.headerCSRFToken ≠ "" ∧ r.headerCSRFToken ≠ "unsafe") := by
      rcases h with h | h <;> simp [h]
    rw [fetchCSRFToken_ok_eq]
    simp only [hc, if_false]
    split_ifs <;> rfl

/-- Witness for C7: a concrete 503 handshake with the sentinel token
fails with the service-down error, and a concrete 200 handshake with a
real token succeeds installing it. -/
theorem fetchCSRFToken_classes_witness :
    fetchCSRFToken (Except.ok ⟨503, "unsafe"⟩) = Except.error FetchErr.serverDown
    ∧ fetchCSRFToken (Except.ok ⟨200, "tok123"⟩) = Except.ok "tok123" := by
  constructor
  · have h := (fetchCSRFToken_success_iff_and_failure_classes ⟨503, "unsafe"⟩).2
      (Or.inr rfl)
    simpa using h
  · exact (fetchCSRFToken_success_iff_and_failure_classes ⟨200, "tok123"⟩).1.mpr
      (by simp)

/-- Claim C8: when `Getattr` gets a record from the attribute cache and
both owner and group identifiers of that record are zero, the returned
record carries the calling context's user and group. -/
theorem getattr_fills_owner_group
    (st : FSState) (provider : String → Except String Stat_t)
    (p : String) (now ctxUid ctxGid : Nat) (stat : Stat_t)
    (hne : isNotExist st.notExistList p = false)
    (hok : (cacheGet st.statCache provider p now).1 = Except.ok stat)
    (huid : stat.uid = 0) (hgid : stat.gid = 0) :
    (Getattr st provider p now ctxUid ctxGid).errno = 0
    ∧ (Getattr st provider p now ctxUid ctxGid).stat
        = some { stat with uid := ctxUid, gid := ctxGid } := by
  simp [Getattr, hne, hok, huid]

/-- Witness for C8: a cached record with zero owner and group comes back
from `Getattr` carrying the context identifiers 1000/1001. -/
theorem getattr_fills_owner_group_witness :
    (Getattr
        { notExistList := [],
          statCache := [("/f",
            { value := { flags := 0, uid := 0, gid := 0, ctim := 0, atim := 0,
                         mtim := 0, mode := 0, size := 0 },
              cachedAt := 0, ttlSeconds := 15 })] }
        (fun _ => Except.error "remote") "/f" 0 1000 1001).errno = 0
    ∧ (Getattr
        { notExistList := [],
          statCache := [("/f",
            { value := { flags := 0, uid := 0, gid := 0, ctim := 0, atim := 0,
                         mtim := 0, mode := 0, size := 0 },
              cachedAt := 0, ttlSeconds := 15 })] }
        (fun _ => Except.error "remote") "/f" 0 1000 1001).stat
        = some { flags := 0, uid := 1000, gid := 1001, ctim := 0, atim := 0,
                 mtim := 0, mode := 0, size := 0 } :=
  getattr_fills_owner_group
    { notExistList := [],
      statCache := [("/f",
        { value := { flags := 0, uid := 0, gid := 0, ctim := 0, atim := 0,
                     mtim := 0, mode := 0, size := 0 },
          cachedAt := 0, ttlSeconds := 15 })] }
    (fun _ => Except.error "remote") "/f" 0 1000 1001
    { flags := 0, uid := 0, gid := 0, ctim := 0, atim := 0, mtim := 0,
      mode := 0, size := 0 }
    rfl rfl rfl rfl

/-- Membership characterization of the linear scan `isNotExist`. -/
theorem isNotExist_iff_mem (l : List String) (p : String) :
    isNotExist l p = true ↔ p ∈ l := by
  induction l with
  | nil => simp [isNotExist]
  | cons f rest ih =>
    by_cases h : f = p
    · simp [isNotExist, h]
    · simp [isNotExist, h, ih]
      intro hpf
      exact absurd hpf.symm h

/-- After `notExist`, the path is always a member of the list. -/
theorem isNotExist_notExist_self (l : List String) (p : String) :
    isNotExist (notExist l p) p = true := by
  unfold notExist
  by_cases h : isNotExist l p = true
  · simpa [h] using h
  · simp [h, isNotExist_iff_mem]

/-- Claim C4: a path on the negative-existence list makes `Getattr`
fail with `-ENOENT` at once, touching neither the cache provider nor
the state; a path not on the list whose attribute-cache lookup fails
makes `Getattr` fail with `-ENOENT` and add the path to the list, so
that any immediately subsequent `Getattr` on the same path fails with
`-ENOENT` without invoking the provider (no remote call). -/
theorem getattr_negative_caching
    (st : FSState) (provider : String → Except String Stat_t)
    (p : String) (now now2 ctxUid ctxGid ctxUid2 ctxGid2 : Nat) :
    (isNotExist st.notExistList p = true →
      (Getattr st provider p now ctxUid ctxGid).errno = -ENOENT
      ∧ (Getattr st provider p now ctxUid ctxGid).remoteIssued = false
      ∧ (Getattr st provider p now ctxUid ctxGid).state = st)
    ∧ (isNotExist st.notExistList p = false →
      ∀ e, (cacheGet st.statCache provider p now).1 = Except.error e →
        (Getattr st provider p now ctxUid ctxGid).errno = -ENOENT
        ∧ isNotExist (Getattr st provider p now ctxUid ctxGid).state.notExistList p
            = true
        ∧ (Getattr (Getattr st provider p now ctxUid ctxGid).state provider p
            now2 ctxUid2 ctxGid2).errno = -ENOENT
        ∧ (Getattr (Getattr st provider p now ctxUid ctxGid).state provider p
            now2 ctxUid2 ctxGid2).remoteIssued = false) := by
  constructor
  · intro h
    simp [Getattr, h]
  · intro h e herr
    refine ⟨?_, ?_, ?_, ?_⟩ <;>
      simp [Getattr, h, herr, isNotExist_notExist_self]

/-- Witness for C4: a listed path short-circuits, and a 404-style
provider failure on an unlisted path negatively caches it so the second
call is remote-free. -/
theorem getattr_negative_caching_witness :
    ((Getattr { notExistList := ["/gone"], statCache := [] }
        (fun _ => Except.error "404") "/gone" 0 1 1).errno = -ENOENT
      ∧ (Getattr { notExistList := ["/gone"], statCache := [] }
        (fun _ => Except.error "404") "/gone" 0 1 1).remoteIssued = false
      ∧ (Getattr { notExistList := ["/gone"], statCache := [] }
        (fun _ => Except.error "404") "/gone" 0 1 1).state
          = { notExistList := ["/gone"], statCache := [] })
    ∧ ((Getattr { notExistList := [], statCache := [] }
        (fun _ => Except.error "404") "/nf" 0 1 1).errno = -ENOENT
      ∧ isNotExist (Getattr { notExistList := [], statCache := [] }
          (fun _ => Except.error "404") "/nf" 0 1 1).state.notExistList "/nf" = true
      ∧ (Getattr (Getattr { notExistList := [], statCache := [] }
          (fun _ => Except.error "404") "/nf" 0 1 1).state
          (fun _ => Except.error "404") "/nf" 3 2 2).errno = -ENOENT
      ∧ (Getattr (Getattr { notExistList := [], statCache := [] }
          (fun _ => Except.error "404") "/nf" 0 1 1).state
          (fun _ => Except.error "404") "/nf" 3 2 2).remoteIssued = false) :=
  ⟨(getattr_negative_caching { notExistList := ["/gone"], statCache := [] }
      (fun _ => Except.error "404") "/gone" 0 3 1 1 2 2).1 rfl,
   (getattr_negative_caching { notExistList := [], statCache := [] }
      (fun _ => Except.error "404") "/nf" 0 3 1 1 2 2).2 rfl "404" rfl⟩

/-- `notExist` preserves freedom from duplicates: the path is appended
only when the membership test fails. -/
theorem notExist_nodup {l : List String} (p : String) (h : l.Nodup) :
    (notExist l p).Nodup := by
  unfold notExist
  by_cases hm : isNotExist l p = true
  · simpa [hm] using h
  · have hpm : p ∉ l := fun hc => hm ((isNotExist_iff_mem l p).mpr hc)
    simp [hm, List.nodup_append, h, hpm]

/-- Under the guard of `removeFromNotExist` the removal loop never finds
a match, so it leaves the backing array and the live length unchanged. -/
theorem removeLoop_id (p : String) (l : List String) (hp : p ∉ l)
    (idxs : List Nat) (hb : ∀ i ∈ idxs, i < l.length) :
    idxs.foldl (removeStep p) (l, l.length) = (l, l.length) := by
  induction idxs with
  | nil => rfl
  | cons i rest ih =>
    have hi : i < l.length := hb i (by simp)
    have hv : l[i]?.getD "" ≠ p := by
      intro hvp
      apply hp
      rw [← hvp]
      simp only [List.getElem?_eq_getElem hi, Option.getD_some]
      exact List.getElem_mem hi
    have hstep : removeStep p (l, l.length) i = (l, l.length) := by
      simp [removeStep]
      intro hvp
      exact absurd hvp hv
    simp only [List.foldl_cons, hstep]
    exact ih (fun j hj => hb j (List.mem_cons_of_mem _ hj))

/-- The guard of `removeFromNotExist` makes the whole operation the
identity: when the path is present the loop is skipped, and when it is
absent the loop finds nothing to remove. -/
theorem removeFromNotExist_eq_self (l : List String) (p : String) :
    removeFromNotExist l p = l := by
  unfold removeFromNotExist
  by_cases hm : isNotExist l p = true
  · simp [hm]
  · have hp : p ∉ l := fun hc => hm ((isNotExist_iff_mem l p).mpr hc)
    have hfold := removeLoop_id p l hp (List.range l.length)
      (fun i hi => List.mem_range.mp hi)
    simp [hm, hfold]

/-- Any sequence of adds and removes keeps the list duplicate-free. -/
theorem foldl_applyOp_nodup (ops : List NotExistOp) :
    ∀ l : List String, l.Nodup → (ops.foldl applyOp l).Nodup := by
  induction ops with
  | nil => intro l h; simpa using h
  | cons op rest ih =>
    intro l h
    simp only [List.foldl_cons]
    refine ih _ ?_
    cases op with
    | add p => exact notExist_nodup p h
    | remove p => simpa [applyOp, removeFromNotExist_eq_self] using h

/-- Claim C9: starting from the empty list, after any sequence of add
(`notExist`) and remove (`removeFromNotExist`) operations every path
occurs in the negative-existence list at most once, because an add only
happens after a failed membership test (and a remove never adds). -/
theorem notExistList_nodup (ops : List NotExistOp) : (applyOps ops).Nodup :=
  foldl_applyOp_nodup ops [] (by simp)

/-- Evaluation of the embedded `Read` copy logic at a non-negative
offset `o`: the copied bytes are the window of length `len(buff)` at
`o`, clipped to the content length, and the returned count is its
length. -/
theorem fsRead_ok_natOffset (c : List Nat) (b o : Nat) :
    fsRead (Except.ok c) b (o : Int) =
      some (((min b (c.length - o) : Nat) : Int), (c.drop o).take b) := by
  simp only [fsRead, Int.toNat_natCast]
  split_ifs with h1 h2 h3 h4 h5
  · -- clipped, and the offset is past the content: zero bytes, no error
    have hlen : c.length ≤ o := by exact_mod_cast le_of_lt h2
    simp [Nat.sub_eq_zero_of_le hlen, List.drop_eq_nil_of_le hlen]
  · -- clipped, offset within content: exactly the trailing bytes
    have ho : o ≤ c.length := by
      have := not_lt.mp h2
      exact_mod_cast this
    have hba : c.length - o ≤ b := by
      have : (c.length : Int) < o + b := h1
      omega
    have hsrc : ((c.length : Int) - o).toNat = c.length - o := by omega
    rw [hsrc]
    have hdl : (c.drop o).length = c.length - o := List.length_drop o c
    have ht1 : (c.drop o).take (c.length - o) = c.drop o := by
      rw [← hdl]
      exact List.take_length _
    have ht2 : (c.drop o).take b = c.drop o := List.take_of_length_le (by omega)
    rw [ht1, ht2, hdl, Nat.min_eq_right hba]
  · -- the slice lower bound is a natural number, never negative
    exact absurd (Int.natCast_nonneg o) h3
  · -- not clipped: endofst = o + b cannot be below o
    exfalso
    have : (o : Int) + b < o := h4
    omega
  · -- not clipped: copy exactly len(buff) bytes
    have hfit : o + b ≤ c.length := by
      have := not_lt.mp h1
      exact_mod_cast this
    have hb : ((o : Int) + b - o).toNat = b := by omega
    rw [hb]
    have hdl : (c.drop o).length = c.length - o := List.length_drop o c
    simp [List.length_take, hdl]
  · exact absurd (Int.natCast_nonneg o) h5

/-- Claim C5: for content `c`, buffer length `len(b)` and non-negative
offset, `Read` copies the byte range `[ofst, ofst+len(b))` of `c`
clipped to `len(c)`; an offset at or beyond `len(c)` copies zero bytes
without error; an in-range offset whose window overruns the end copies
exactly the `len(c) - ofst` trailing bytes. -/
theorem read_clips_range (c : List Nat) (b : Nat) (ofst : Int) (h : 0 ≤ ofst) :
    (fsRead (Except.ok c) b ofst =
        some (((min b (c.length - ofst.toNat) : Nat) : Int),
          (c.drop ofst.toNat).take b))
    ∧ ((c.length : Int) ≤ ofst →
        (fsRead (Except.ok c) b ofst).map Prod.fst = some 0)
    ∧ ((ofst < (c.length : Int) ∧ (c.length : Int) < ofst + b) →
        (fsRead (Except.ok c) b ofst).map Prod.fst
          = some ((c.length - ofst.toNat : Nat) : Int)) := by
  obtain ⟨o, rfl⟩ := Int.eq_ofNat_of_zero_le h
  simp only [Int.toNat_natCast]
  refine ⟨fsRead_ok_natOffset c b o, ?_, ?_⟩
  · intro hlen
    rw [fsRead_ok_natOffset c b o]
    have hle : c.length ≤ o := by exact_mod_cast hlen
    simp [Nat.sub_eq_zero_of_le hle]
  · rintro ⟨hlt, hover⟩
    rw [fsRead_ok_natOffset c b o]
    have h1 : o < c.length := by exact_mod_cast hlt
    have h2 : c.length < o + b := by exact_mod_cast hover
    have hmin : min b (c.length - o) = c.length - o := Nat.min_eq_right (by omega)
    simp [hmin]

/-- Witness for C5: reading 2 bytes at offset 2 of a 3-byte content
copies exactly the single trailing byte. -/
theorem read_clips_range_witness :
    fsRead (Except.ok [4, 5, 6]) 2 2 = some (1, [6]) := by
  have h := (read_clips_range [4, 5, 6] 2 2 (by decide)).1
  exact h.trans (by decide)

/-- Reading back the binding just installed. -/
theorem mapGet_mapSet_self {α : Type} (m : List (String × α)) (k : String) (v : α) :
    mapGet (mapSet m k v) k = some v := by
  simp [mapGet, mapSet]

/-- Installing a binding leaves every other key unchanged. -/
theorem mapGet_mapSet_ne {α : Type} (m : List (String × α)) (k k1 : String)
    (v : α) (h : k ≠ k1) : mapGet (mapSet m k v) k1 = mapGet m k1 := by
  simp [mapGet, mapSet, h]

/-- A valid cache entry is served as a hit: no provider call and an
unchanged cache. -/
theorem cacheGet_hit {α : Type} (m : Cache α) (provider : String → Except String α)
    (p : String) (t : Nat) (e : CacheEntry α)
    (hm : mapGet m p = some e) (hv : cacheValid e t = true) :
    cacheGet m provider p t = (Except.ok e.value, m, false) := by
  simp [cacheGet, hm, hv]

/-- One `getDir` loop iteration preloads a fresh entry under the
processed child's content location. -/
theorem getDirStep_establishes (rf : String → Except String (List Nat))
    (path : String) (now uid gid : Nat)
    (acc : CachedDirectory × Cache Stat_t) (child : DirChild) :
    ∃ v, mapGet (getDirStep rf path now uid gid acc child).2 child.contentLocation
      = some { value := v, cachedAt := now, ttlSeconds := DefaultRemoteCacheSeconds } :=
  ⟨getDirChildStat rf path now uid gid child,
    by simp [getDirStep, preloadWithTTL, mapGet_mapSet_self]⟩

/-- A `getDir` loop iteration keeps every already fresh entry fresh:
either it does not touch the location, or it overwrites it with another
entry timestamped `now` with the default TTL. -/
theorem getDirStep_preserves (rf : String → Except String (List Nat))
    (path : String) (now uid gid : Nat) (loc : String)
    (acc : CachedDirectory × Cache Stat_t) (child : DirChild)
    (h : ∃ v, mapGet acc.2 loc
      = some { value := v, cachedAt := now, ttlSeconds := DefaultRemoteCacheSeconds }) :
    ∃ v, mapGet (getDirStep rf path now uid gid acc child).2 loc
      = some { value := v, cachedAt := now, ttlSeconds := DefaultRemoteCacheSeconds } := by
  obtain ⟨v, hv⟩ := h
  by_cases hloc : child.contentLocation = loc
  · exact ⟨getDirChildStat rf path now uid gid child,
      by simp [getDirStep, preloadWithTTL, hloc, mapGet_mapSet_self]⟩
  · exact ⟨v, by
      simpa [getDirStep, preloadWithTTL, mapGet_mapSet_ne _ _ _ _ hloc] using hv⟩

/-- Freshness at a location survives the rest of the `getDir` loop. -/
theorem foldl_getDirStep_preserves (rf : String → Except String (List Nat))
    (path : String) (now uid gid : Nat) (loc : String)
    (children : List DirChild) :
    ∀ acc : CachedDirectory × Cache Stat_t,
      (∃ v, mapGet acc.2 loc
        = some { value := v, cachedAt := now, ttlSeconds := DefaultRemoteCacheSeconds }) →
      ∃ v, mapGet ((children.foldl (getDirStep rf path now uid gid) acc)).2 loc
        = some { value := v, cachedAt := now, ttlSeconds := DefaultRemoteCacheSeconds } := by
  induction children with
  | nil => intro acc h; simpa using h
  | cons c rest ih =>
    intro acc h
    simp only [List.foldl_cons]
    exact ih _ (getDirStep_preserves rf path now uid gid loc acc c h)

/-- After the `getDir` loop, every discovered child has a fresh stat
cache entry under its own content location. -/
theorem foldl_getDirStep_mem (rf : String → Except String (List Nat))
    (path : String) (now uid gid : Nat)
    (children : List DirChild) (child : DirChild) (hmem : child ∈ children) :
    ∀ acc : CachedDirectory × Cache Stat_t,
      ∃ v, mapGet ((children.foldl (getDirStep rf path now uid gid) acc)).2
          child.contentLocation
        = some { value := v, cachedAt := now, ttlSeconds := DefaultRemoteCacheSeconds } := by
  induction children with
  | nil => cases hmem
  | cons c rest ih =>
    intro acc
    rcases List.mem_cons.mp hmem with h | h
    · subst h
      simp only [List.foldl_cons]
      exact foldl_getDirStep_preserves rf path now uid gid child.contentLocation
        rest _ (getDirStep_establishes rf path now uid gid acc child)
    · simp only [List.foldl_cons]
      exact ih h _

/-- Claim C2: when the listing fetch for a directory succeeds, `getDir`
preloads an Attribute Cache entry for every discovered child under that
child's own path and preloads the Directory Cache entry for the parent
path, so that a `Getattr` on a child path within the TTL window (and
not negatively cached) is a cache hit that issues no remote request. -/
theorem getDir_preloads_children_and_parent
    (dir : DirectoryDetail) (rf : String → Except String (List Nat))
    (path : String) (now uid gid t ctxUid ctxGid : Nat)
    (statCache : Cache Stat_t) (dirCache : Cache CachedDirectory)
    (provider : String → Except String Stat_t)
    (nel : List String) (child : DirChild)
    (hchild : child ∈ dir.children)
    (hne : isNotExist nel child.contentLocation = false)
    (hnow : now ≤ t) (httl : t - now < DefaultRemoteCacheSeconds) :
    (∃ e, mapGet (getDir (Except.ok dir) rf path now uid gid statCache dirCache).2.1
        child.contentLocation = some e ∧ cacheValid e t = true)
    ∧ (∃ rt, (getDir (Except.ok dir) rf path now uid gid statCache dirCache).1
          = Except.ok rt
        ∧ mapGet (getDir (Except.ok dir) rf path now uid gid statCache dirCache).2.2 path
          = some { value := rt, cachedAt := now, ttlSeconds := DefaultRemoteCacheSeconds })
    ∧ (Getattr
        { notExistList := nel,
          statCache := (getDir (Except.ok dir) rf path now uid gid statCache dirCache).2.1 }
        provider child.contentLocation t ctxUid ctxGid).remoteIssued = false
    ∧ (Getattr
        { notExistList := nel,
          statCache := (getDir (Except.ok dir) rf path now uid gid statCache dirCache).2.1 }
        provider child.contentLocation t ctxUid ctxGid).errno = 0 := by
  obtain ⟨v, hv⟩ := foldl_getDirStep_mem rf path now uid gid dir.children child hchild
    (⟨[]⟩, statCache)
  have hget : mapGet (getDir (Except.ok dir) rf path now uid gid statCache dirCache).2.1
      child.contentLocation
      = some { value := v, cachedAt := now, ttlSeconds := DefaultRemoteCacheSeconds } := by
    simpa [getDir] using hv
  have hvalid : cacheValid
      { value := v, cachedAt := now, ttlSeconds := DefaultRemoteCacheSeconds } t = true := by
    simp [cacheValid]
    omega
  have hhit := cacheGet_hit
    (getDir (Except.ok dir) rf path now uid gid statCache dirCache).2.1 provider
    child.contentLocation t _ hget hvalid
  refine ⟨⟨_, hget, hvalid⟩,
    ⟨(dir.children.foldl (getDirStep rf path now uid gid) (⟨[]⟩, statCache)).1,
      ?_, ?_⟩, ?_, ?_⟩
  · simp [getDir]
  · simp [getDir, preloadWithTTL, mapGet_mapSet_self]
  · simp [Getattr, hne, hhit]
  · simp [Getattr, hne, hhit]

/-- Witness for C2: a one-child listing of `"/parent"` preloads the
child entry under `"/parent/a"` and the parent entry under `"/parent"`,
and `Getattr` on `"/parent/a"` within the TTL window hits the cache
without a remote call. -/
theorem getDir_preloads_witness :
    (∃ e, mapGet (getDir (Except.ok ⟨[⟨"a", "/parent/a", false⟩]⟩) readFileParentA
        "/parent" 100 7 8 [] []).2.1 "/parent/a" = some e ∧ cacheValid e 110 = true)
    ∧ (∃ rt, (getDir (Except.ok ⟨[⟨"a", "/parent/a", false⟩]⟩) readFileParentA
          "/parent" 100 7 8 [] []).1 = Except.ok rt
        ∧ mapGet (getDir (Except.ok ⟨[⟨"a", "/parent/a", false⟩]⟩) readFileParentA
            "/parent" 100 7 8 [] []).2.2 "/parent"
          = some { value := rt, cachedAt := 100, ttlSeconds := DefaultRemoteCacheSeconds })
    ∧ (Getattr
        { notExistList := [],
          statCache := (getDir (Except.ok ⟨[⟨"a", "/parent/a", false⟩]⟩) readFileParentA
            "/parent" 100 7 8 [] []).2.1 }
        (fun _ => Except.error "remote") "/parent/a" 110 7 8).remoteIssued = false
    ∧ (Getattr
        { notExistList := [],
          statCache := (getDir (Except.ok ⟨[⟨"a", "/parent/a", false⟩]⟩) readFileParentA
            "/parent" 100 7 8 [] []).2.1 }
        (fun _ => Except.error "remote") "/parent/a" 110 7 8).errno = 0 :=
  getDir_preloads_children_and_parent ⟨[⟨"a", "/parent/a", false⟩]⟩ readFileParentA
    "/parent" 100 7 8 110 7 8 [] [] (fun _ => Except.error "remote") []
    ⟨"a", "/parent/a", false⟩ (by simp) rfl (by omega) (by decide)
